import Mathlib

/-!
Shallow embedding of the `nonlinear` Go package (curve family `part_000` and
interpolation entry points `part_001`) over the real numbers, with the
piecewise-linear stopped curve and the bisection helper additionally kept
generic over a linear ordered field so that concrete runs can be evaluated
exactly over `ℚ`.  Names follow the Go source.  Go's `float64` arithmetic is
idealised as exact field arithmetic; the one place where IEEE special values
are semantically load-bearing (`InvNLerp` with a zero-width range) is modelled
separately with an explicit value type carrying infinities and NaN.
-/

/-- Mirrors the Go interface `NonLinear`: a pair of maps on `[0,1]`. -/
structure NonLinear where
  Transform : ℝ → ℝ
  InvTransform : ℝ → ℝ

/-- Go `NLLinear.Transform`: `v = t`. -/
def NLLinear.Transform (t : ℝ) : ℝ := t

/-- Go `NLLinear.InvTransform`. -/
def NLLinear.InvTransform (v : ℝ) : ℝ := v

/-- `NLLinear` seen through the `NonLinear` interface. -/
def NLLinear.asNonLinear : NonLinear :=
  ⟨NLLinear.Transform, NLLinear.InvTransform⟩

/-- Go `NLSquare.Transform`: `v = t*t`. -/
def NLSquare.Transform (t : ℝ) : ℝ := t * t

/-- Go `NLSquare.InvTransform`: `math.Sqrt v`. -/
noncomputable def NLSquare.InvTransform (v : ℝ) : ℝ := Real.sqrt v

/-- `NLSquare` seen through the `NonLinear` interface. -/
noncomputable def NLSquare.asNonLinear : NonLinear :=
  ⟨NLSquare.Transform, NLSquare.InvTransform⟩

/-- Go `NLCube.Transform`: `v = t*t*t`. -/
def NLCube.Transform (t : ℝ) : ℝ := t * t * t

/-- Go `NLCube.InvTransform`: `math.Pow(v, 1/3.0)`. -/
noncomputable def NLCube.InvTransform (v : ℝ) : ℝ := v ^ (1 / 3 : ℝ)

/-- Go struct `NLExponential{K, Scale}`. -/
structure NLExponential where
  K : ℝ
  Scale : ℝ

/-- Go `NewNLExponential`: scale `1/(exp k - 1)`. -/
noncomputable def NewNLExponential (k : ℝ) : NLExponential :=
  ⟨k, 1 / (Real.exp k - 1)⟩

/-- Go `NLExponential.Transform`: `(exp(t*k) - 1) * scale`. -/
noncomputable def NLExponential.Transform (nl : NLExponential) (t : ℝ) : ℝ :=
  (Real.exp (t * nl.K) - 1) * nl.Scale

/-- Go `NLExponential.InvTransform`: `log1p(v/scale)/k`. -/
noncomputable def NLExponential.InvTransform (nl : NLExponential) (v : ℝ) : ℝ :=
  Real.log (1 + v / nl.Scale) / nl.K

/-- Go struct `NLLogarithmic{K, Scale}`. -/
structure NLLogarithmic where
  K : ℝ
  Scale : ℝ

/-- Go `NewNLLogarithmic`: scale `1/log1p k`. -/
noncomputable def NewNLLogarithmic (k : ℝ) : NLLogarithmic :=
  ⟨k, 1 / Real.log (1 + k)⟩

/-- Go `NLLogarithmic.Transform`: `log1p(t*k) * scale`. -/
noncomputable def NLLogarithmic.Transform (nl : NLLogarithmic) (t : ℝ) : ℝ :=
  Real.log (1 + t * nl.K) * nl.Scale

/-- Go `NLLogarithmic.InvTransform`: `(exp(v/scale) - 1)/k`. -/
noncomputable def NLLogarithmic.InvTransform (nl : NLLogarithmic) (v : ℝ) : ℝ :=
  (Real.exp (v / nl.Scale) - 1) / nl.K

/-- Go `NLSin.Transform`: `(sin((t-0.5)*π)+1)/2`. -/
noncomputable def NLSin.Transform (t : ℝ) : ℝ :=
  (Real.sin ((t - 0.5) * Real.pi) + 1) / 2

/-- Go `NLSin.InvTransform`. -/
noncomputable def NLSin.InvTransform (v : ℝ) : ℝ :=
  Real.arcsin (v * 2 - 1) / Real.pi + 0.5

/-- Go `NLSin1.Transform`: `sin(t*π/2)`. -/
noncomputable def NLSin1.Transform (t : ℝ) : ℝ := Real.sin (t * Real.pi / 2)

/-- Go `NLSin1.InvTransform`. -/
noncomputable def NLSin1.InvTransform (v : ℝ) : ℝ := Real.arcsin v / Real.pi * 2

/-- Go `NLSin2.Transform`: `sin((t-1)*π/2)+1`. -/
noncomputable def NLSin2.Transform (t : ℝ) : ℝ :=
  Real.sin ((t - 1) * Real.pi / 2) + 1

/-- Go `NLSin2.InvTransform`. -/
noncomputable def NLSin2.InvTransform (v : ℝ) : ℝ :=
  Real.arcsin (v - 1) * 2 / Real.pi + 1

/-- Go `NLCircle1.Transform`: `1 - sqrt(1-t*t)` for `t < 1`, else `1`. -/
noncomputable def NLCircle1.Transform (t : ℝ) : ℝ :=
  if t < 1 then 1 - Real.sqrt (1 - t * t) else 1

/-- Go `NLCircle1.InvTransform`: `sqrt(1-(v-1)*(v-1))` for `v < 1`, else `1`. -/
noncomputable def NLCircle1.InvTransform (v : ℝ) : ℝ :=
  if v < 1 then Real.sqrt (1 - (v - 1) * (v - 1)) else 1

/-- Go `NLCircle2.Transform`: `sqrt(t*(2-t))`. -/
noncomputable def NLCircle2.Transform (t : ℝ) : ℝ := Real.sqrt (t * (2 - t))

/-- Go `NLCircle2.InvTransform`: `1 - sqrt(1-v*v)`. -/
noncomputable def NLCircle2.InvTransform (v : ℝ) : ℝ :=
  1 - Real.sqrt (1 - v * v)

/-- Go struct `NLLame{N, M, Odn, Odm}`. -/
structure NLLame where
  N : ℝ
  M : ℝ
  Odn : ℝ
  Odm : ℝ

/-- Go `NewNLLame`: stores `n, m, 1/n, 1/m`. -/
noncomputable def NewNLLame (n m : ℝ) : NLLame := ⟨n, m, 1 / n, 1 / m⟩

/-- Go `NLLame.Transform`: for `t < 1`, `vm = 1 - t^n`, result `1 - vm^(1/m)`;
else `1`.  `math.Pow` is modelled by the real power `Real.rpow`. -/
noncomputable def NLLame.Transform (nl : NLLame) (t : ℝ) : ℝ :=
  if t < 1 then 1 - (1 - t ^ nl.N) ^ nl.Odm else 1

/-- Go `NLLame.InvTransform`: for `v < 1`, with `v' = 1 - v`,
`tn = 1 - v'^m`, result `tn^(1/n)`; else `1`. -/
noncomputable def NLLame.InvTransform (nl : NLLame) (v : ℝ) : ℝ :=
  if v < 1 then (1 - (1 - v) ^ nl.M) ^ nl.Odn else 1

/-- Go `NLCatenary.Transform`: `(cosh t - 1)/(cosh 1 - 1)`.  (The inverse uses
`math.Acosh`, which has no counterpart in this toolchain's library and is not
needed below.) -/
noncomputable def NLCatenary.Transform (t : ℝ) : ℝ :=
  (Real.cosh t - 1) / (Real.cosh 1 - 1)

/-- Go struct `NLGauss{K, Offs, Scale}`. -/
structure NLGauss where
  K : ℝ
  Offs : ℝ
  Scale : ℝ

/-- Go `NewNLGauss`: `offs = exp(-k*k*0.5)`, `scale = 1/(1-offs)`. -/
noncomputable def NewNLGauss (k : ℝ) : NLGauss :=
  ⟨k, Real.exp (-k * k * 0.5), 1 / (1 - Real.exp (-k * k * 0.5))⟩

/-- Go `NLGauss.Transform`: `x = k*(t-1); x *= -0.5*x;
return (exp x - offs) * scale`. -/
noncomputable def NLGauss.Transform (nl : NLGauss) (t : ℝ) : ℝ :=
  (Real.exp (nl.K * (t - 1) * (-0.5 * (nl.K * (t - 1)))) - nl.Offs) * nl.Scale

/-- Go `NLGauss.InvTransform`: undo scale and offset, log, times `-2`,
sqrt, `1 - v/k`. -/
noncomputable def NLGauss.InvTransform (nl : NLGauss) (v : ℝ) : ℝ :=
  1 - Real.sqrt (Real.log (v / nl.Scale + nl.Offs) * (-2)) / nl.K

/-- Go helper `logisticTransform` (L = 1, k = 1, mp = 0): `1/(1+exp(-t))`. -/
noncomputable def logisticTransform (t : ℝ) : ℝ := 1 / (1 + Real.exp (-t))

/-- Go helper `logisticInvTransform`: `-log(1/v - 1)`. -/
noncomputable def logisticInvTransform (v : ℝ) : ℝ := -Real.log (1 / v - 1)

/-- Go struct `NLLogistic{K, Mp, Offs, Scale}`. -/
structure NLLogistic where
  K : ℝ
  Mp : ℝ
  Offs : ℝ
  Scale : ℝ

/-- Go `NewNLLogistic`: `v0 = σ(-mp*k)`, `v1 = σ((1-mp)*k)`,
stores offset `v0` and scale `1/(v1-v0)`. -/
noncomputable def NewNLLogistic (k mp : ℝ) : NLLogistic :=
  ⟨k, mp, logisticTransform (-mp * k),
    1 / (logisticTransform ((1 - mp) * k) - logisticTransform (-mp * k))⟩

/-- Go `NLLogistic.Transform`: `t = (t-mp)*k; (σ(t) - offs) * scale`. -/
noncomputable def NLLogistic.Transform (nl : NLLogistic) (t : ℝ) : ℝ :=
  (logisticTransform ((t - nl.Mp) * nl.K) - nl.Offs) * nl.Scale

/-- Go `NLLogistic.InvTransform`. -/
noncomputable def NLLogistic.InvTransform (nl : NLLogistic) (v : ℝ) : ℝ :=
  logisticInvTransform (v / nl.Scale + nl.Offs) / nl.K + nl.Mp

/-- Go `NLP3.Transform` (smoothstep): `t*t*(3-2t)`. -/
def NLP3.Transform (t : ℝ) : ℝ := t * t * (3 - 2 * t)

/-- Go `NLP5.Transform` (smootherstep): `t*t*t*(t*(t*6-15)+10)`. -/
def NLP5.Transform (t : ℝ) : ℝ := t * t * t * (t * (t * 6.0 - 15.0) + 10.0)

/-- Iteration core of Go `bsInv`: `n` remaining iterations, current point `t`,
current step `s`; move `t` down by `s` when `f t > v`, else up, then halve
`s`.  Kept generic over a linear ordered field. -/
def bsInvGo {K : Type*} [LinearOrderedField K] (v : K) (f : K → K) :
    ℕ → K → K → K
  | 0, t, _ => t
  | n + 1, t, s => bsInvGo v f n (if f t > v then t - s else t + s) (s / 2)

/-- Go `bsInv`: fixed 16-iteration binary search starting at `t = 0.5` with
step `0.25`, with no convergence check. -/
def bsInv {K : Type*} [LinearOrderedField K] (v : K) (f : K → K) : K :=
  bsInvGo v f 16 (1 / 2) (1 / 4)

/-- Go `NLP3.InvTransform`: `bsInv(v, nl)`. -/
noncomputable def NLP3.InvTransform (v : ℝ) : ℝ := bsInv v NLP3.Transform

/-- Go `NLP5.InvTransform`: `bsInv(v, nl)`. -/
noncomputable def NLP5.InvTransform (v : ℝ) : ℝ := bsInv v NLP5.Transform

/-- Go struct `NLCompound{Fs}`: an ordered list of child curves. -/
structure NLCompound where
  Fs : List NonLinear

/-- Go `NewNLCompound`. -/
def NewNLCompound (fs : List NonLinear) : NLCompound := ⟨fs⟩

/-- Go `NLCompound.Transform`: thread `t` through the children in order. -/
def NLCompound.Transform (nl : NLCompound) (t : ℝ) : ℝ :=
  nl.Fs.foldl (fun a f => f.Transform a) t

/-- Go `NLCompound.InvTransform`: thread `v` through the children in reverse
order. -/
def NLCompound.InvTransform (nl : NLCompound) (v : ℝ) : ℝ :=
  nl.Fs.reverse.foldl (fun a f => f.InvTransform a) v

/-- Go struct `NLOmt{F}`: the "one minus t" reflection of a child curve. -/
structure NLOmt where
  F : NonLinear

/-- Go `NewNLOmt`. -/
def NewNLOmt (f : NonLinear) : NLOmt := ⟨f⟩

/-- Go `NLOmt.Transform`: `t = 1-t; if t > 0 return 1 - F.Transform(t);
return 1`. -/
noncomputable def NLOmt.Transform (nl : NLOmt) (t : ℝ) : ℝ :=
  if 1 - t > 0 then 1 - nl.F.Transform (1 - t) else 1

/-- Go `NLOmt.InvTransform`: `v = 1-v; if v > 0 return
1 - F.InvTransform(1-v); return 1`.  Note that after the reassignment the
argument `1-v` is the ORIGINAL input again. -/
noncomputable def NLOmt.InvTransform (nl : NLOmt) (v : ℝ) : ℝ :=
  if 1 - v > 0 then 1 - nl.F.InvTransform (1 - (1 - v)) else 1

/-- Go struct `NLStopped{Stops}`: pairs of `(t, v)` control points. -/
structure NLStopped (K : Type*) where
  Stops : List (K × K)

/-- Go `NewNLStopped`: stores the stops unchecked. -/
def NewNLStopped {K : Type*} (stops : List (K × K)) : NLStopped K := ⟨stops⟩

/-- Break index of the scan loop in Go `NLStopped.Transform`: the first index
`i` with `Stops[i][0] > t`, or the length if the loop runs to completion. -/
def NLStopped.brk {K : Type*} [LinearOrderedField K] (t : K) :
    List (K × K) → ℕ
  | [] => 0
  | p :: ps => if p.1 > t then 0 else NLStopped.brk t ps + 1

/-- Go `NLStopped.Transform`.  With break index `i` and `ns` stops: for
`i == ns` the left anchor is `Stops[ns-1]` (an out-of-range access when the
stop list is empty, modelled as `none`); otherwise the left anchor is
`Stops[i-1]` when `i > 1` (the guard as written in the source) and `(0,0)`
when `i <= 1`.  The right anchor is `Stops[i]` when `i < ns`, else `(1,1)`,
and the result linearly blends the anchors at `(t - t0)/(t1 - t0)`. -/
def NLStopped.Transform {K : Type*} [LinearOrderedField K]
    (nl : NLStopped K) (t : K) : Option K :=
  let stops := nl.Stops
  let ns := stops.length
  let i := NLStopped.brk t stops
  let p0 : Option (K × K) :=
    if i = ns then stops[ns - 1]?
    else if 1 < i then stops[i - 1]?
    else some (0, 0)
  p0.map fun q0 =>
    let q1 : K × K := if i < ns then stops.getD i (1, 1) else (1, 1)
    let s := (t - q0.1) / (q1.1 - q0.1)
    (1 - s) * q0.2 + s * q1.2

/-- Go `NLStopped.InvTransform`: `bsInv(v, nl)`.  The bisection evaluates the
forward transform, so an empty stop list fails (the panic is modelled as
`none`); for a non-empty stop list the forward transform is total. -/
def NLStopped.InvTransform {K : Type*} [LinearOrderedField K]
    (nl : NLStopped K) (v : K) : Option K :=
  if nl.Stops = [] then none
  else some (bsInv v fun t => (nl.Transform t).getD 0)

/-- Go `NLerp` (file `part_001`): `t < 0` returns `start`, `t > 1` returns
`end`, otherwise blends the endpoints with weight `f.Transform t`. -/
noncomputable def NLerp (t start end_ : ℝ) (f : NonLinear) : ℝ :=
  if t < 0 then start
  else if t > 1 then end_
  else (1 - f.Transform t) * start + f.Transform t * end_

/-- IEEE-style value for modelling the zero-width-range path of `InvNLerp`:
a finite value (idealised as an exact rational), the two infinities, or NaN.
Go's `float64` division by a zero-width range produces exactly these. -/
inductive FVal where
  | fin : ℚ → FVal
  | pinf : FVal
  | ninf : FVal
  | nan : FVal
deriving DecidableEq

/-- IEEE subtraction on `FVal` (finite minus finite is exact; any NaN operand
or same-signed infinities give NaN). -/
def FVal.fsub : FVal → FVal → FVal
  | .fin x, .fin y => .fin (x - y)
  | .fin _, .pinf => .ninf
  | .fin _, .ninf => .pinf
  | .pinf, .fin _ => .pinf
  | .ninf, .fin _ => .ninf
  | .pinf, .ninf => .pinf
  | .ninf, .pinf => .ninf
  | _, _ => .nan

/-- IEEE division on `FVal`: a nonzero finite value divided by zero gives the
signed infinity, `0/0` gives NaN, finite over infinite gives `0`, infinite
over infinite or any NaN operand gives NaN. -/
def FVal.fdiv : FVal → FVal → FVal
  | .fin x, .fin y =>
      if y = 0 then (if x = 0 then .nan else if 0 < x then .pinf else .ninf)
      else .fin (x / y)
  | .fin _, .pinf => .fin 0
  | .fin _, .ninf => .fin 0
  | .pinf, .fin y => if 0 ≤ y then .pinf else .ninf
  | .ninf, .fin y => if 0 ≤ y then .ninf else .pinf
  | _, _ => .nan

/-- IEEE `<` on `FVal`: any comparison with NaN is false. -/
def FVal.flt : FVal → FVal → Bool
  | .nan, _ => false
  | _, .nan => false
  | .fin x, .fin y => decide (x < y)
  | .ninf, .ninf => false
  | .ninf, _ => true
  | _, .ninf => false
  | .pinf, .pinf => false
  | _, .pinf => true
  | .pinf, _ => false

/-- The `NonLinear` interface over the IEEE-style values. -/
structure NonLinearF where
  Transform : FVal → FVal
  InvTransform : FVal → FVal

/-- Go `InvNLerp` (file `part_001`) over the IEEE-style values:
`t = (v - start)/(end - start)`; `t < 0` returns `0`, `t > 1` returns `1`,
otherwise the result is `f.InvTransform t`.  NaN fails both comparisons and
reaches the curve. -/
def InvNLerp (v start end_ : FVal) (f : NonLinearF) : FVal :=
  let t := FVal.fdiv (FVal.fsub v start) (FVal.fsub end_ start)
  if FVal.flt t (.fin 0) then .fin 0
  else if FVal.flt (.fin 1) t then .fin 1
  else f.InvTransform t

/-- Modelled from the spec: the last stop whose `t`-coordinate is at most `t`,
with default anchor `(0,0)` (the bracketing rule of the stopped-curve claim;
kept for comparison against `NLStopped.Transform`). -/
def specLastLE {K : Type*} [LinearOrderedField K] (t : K) :
    List (K × K) → (K × K) → K × K
  | [], d => d
  | p :: ps, d => if p.1 ≤ t then specLastLE t ps p else d

/-- Modelled from the spec: the first stop whose `t`-coordinate exceeds `t`,
with default anchor `(1,1)`. -/
def specFirstGT {K : Type*} [LinearOrderedField K] (t : K) :
    List (K × K) → K × K
  | [] => (1, 1)
  | p :: ps => if p.1 > t then p else specFirstGT t ps

/-- Modelled from the spec: piecewise-linear interpolation through the stops
with implicit anchors `(0,0)` and `(1,1)`, blending the bracketing stops at
fraction `(t - t0)/(t1 - t0)`. -/
def specStopped {K : Type*} [LinearOrderedField K]
    (stops : List (K × K)) (t : K) : K :=
  let q0 := specLastLE t stops (0, 0)
  let q1 := specFirstGT t stops
  let s := (t - q0.1) / (q1.1 - q0.1)
  (1 - s) * q0.2 + s * q1.2

/-- Claim C1: the round trip `inv_transform(transform t) ≈ t` FAILS on the
code for the Reflected combinator applied to `NLSquare`.  At `t = 0` the
forward transform yields `0` and `NLOmt.InvTransform 0` returns `1` (it
evaluates the child inverse at the original argument instead of its
reflection), an error of a full unit, far beyond the stated `1e-9`. -/
theorem omt_square_roundtrip_fails_at_zero :
    (NewNLOmt NLSquare.asNonLinear).InvTransform
      ((NewNLOmt NLSquare.asNonLinear).Transform 0) = 1 ∧
    ¬ |(NewNLOmt NLSquare.asNonLinear).InvTransform
        ((NewNLOmt NLSquare.asNonLinear).Transform 0) - 0| ≤ 1e-9 := by
  have h1 : (NewNLOmt NLSquare.asNonLinear).Transform 0 = 0 := by
    norm_num [NewNLOmt, NLOmt.Transform, NLSquare.asNonLinear,
      NLSquare.Transform]
  have h2 : (NewNLOmt NLSquare.asNonLinear).InvTransform 0 = 1 := by
    norm_num [NewNLOmt, NLOmt.InvTransform, NLSquare.asNonLinear,
      NLSquare.InvTransform]
  rw [h1, h2]
  norm_num

/-- Claim C2: the stopped-curve transform FAILS to interpolate through the
bracketing stops.  For the strictly ascending stop list
`[(1/4, 1/2), (1/2, 3/5)]` at `t = 3/10`, the code blends from the anchor
`(0,0)` (the `i > 1` guard skips the first stop) and returns `9/25 = 0.36`,
while the piecewise-linear interpolation through the last stop at or below
`t` — segment `(1/4,1/2)-(1/2,3/5)` — gives `13/25 = 0.52`. -/
theorem stopped_transform_diverges_from_spec :
    (NewNLStopped [((1 : ℚ)/4, 1/2), (1/2, 3/5)]).Transform (3/10)
        = some (9/25) ∧
    specStopped [((1 : ℚ)/4, 1/2), (1/2, 3/5)] (3/10) = 13/25 ∧
    ((9 : ℚ)/25) ≠ 13/25 := by
  refine ⟨?_, ?_, by norm_num⟩
  · norm_num [NewNLStopped, NLStopped.Transform, NLStopped.brk]
  · norm_num [specStopped, specLastLE, specFirstGT]

/-- Claim C4: the forward transform is NOT monotonic for every curve built
with valid parameters.  The stopped curve over the strictly ascending list
`[(1/4, 1/2), (1/2, 3/5)]` decreases across `t = 1/4`: the code maps
`1/5 ↦ 2/5` but `1/4 ↦ 3/10 < 2/5` (same `i > 1` guard slip). -/
theorem stopped_transform_not_monotone :
    (1 : ℚ)/5 < 1/4 ∧
    (NewNLStopped [((1 : ℚ)/4, 1/2), (1/2, 3/5)]).Transform (1/5)
        = some (2/5) ∧
    (NewNLStopped [((1 : ℚ)/4, 1/2), (1/2, 3/5)]).Transform (1/4)
        = some (3/10) ∧
    ¬ ((2 : ℚ)/5 ≤ 3/10) := by
  refine ⟨by norm_num, ?_, ?_, by norm_num⟩
  · norm_num [NewNLStopped, NLStopped.Transform, NLStopped.brk]
  · norm_num [NewNLStopped, NLStopped.Transform, NLStopped.brk]

/-- Claim C10: the constructor accepts an empty stop list, and the transform
of the resulting curve fails (the Go code reads `Stops[-1]`, modelled as
`none`) at every `t` in `[0,1]`. -/
theorem stopped_empty_transform_fails (t : ℚ) (_h0 : 0 ≤ t) (_h1 : t ≤ 1) :
    (NewNLStopped ([] : List (ℚ × ℚ))).Stops = [] ∧
    (NewNLStopped ([] : List (ℚ × ℚ))).Transform t = none := by
  exact ⟨rfl, rfl⟩

theorem stopped_empty_transform_fails_witness :
    (0 : ℚ) ≤ 1/2 ∧ (1/2 : ℚ) ≤ 1 ∧
    ((NewNLStopped ([] : List (ℚ × ℚ))).Stops = [] ∧
      (NewNLStopped ([] : List (ℚ × ℚ))).Transform (1/2) = none) :=
  ⟨by norm_num, by norm_num,
    stopped_empty_transform_fails (1/2) (by norm_num) (by norm_num)⟩

/-- Claim C6: `NLerp` returns exactly `start` for `t < 0` and exactly `end`
for `t > 1`, independently of the curve, and for `t` in `[0,1]` it blends the
endpoints with weight `f.Transform t`. -/
theorem nlerp_clamps_and_blends (t a b : ℝ) (f : NonLinear) :
    (t < 0 → NLerp t a b f = a) ∧
    (t > 1 → NLerp t a b f = b) ∧
    (0 ≤ t → t ≤ 1 →
      NLerp t a b f = (1 - f.Transform t) * a + f.Transform t * b) := by
  refine ⟨fun h => ?_, fun h => ?_, fun h0 h1 => ?_⟩
  · rw [NLerp, if_pos h]
  · rw [NLerp, if_neg (not_lt.mpr (by linarith)), if_pos h]
  · rw [NLerp, if_neg (not_lt.mpr h0), if_neg (not_lt.mpr h1)]

theorem nlerp_clamps_and_blends_witness :
    NLerp (-1) 3 5 NLLinear.asNonLinear = 3 ∧
    NLerp 2 3 5 NLLinear.asNonLinear = 5 ∧
    NLerp (1/2) 3 5 NLLinear.asNonLinear
      = (1 - NLLinear.asNonLinear.Transform (1/2)) * 3 +
          NLLinear.asNonLinear.Transform (1/2) * 5 :=
  ⟨(nlerp_clamps_and_blends (-1) 3 5 NLLinear.asNonLinear).1 (by norm_num),
    (nlerp_clamps_and_blends 2 3 5 NLLinear.asNonLinear).2.1 (by norm_num),
    (nlerp_clamps_and_blends (1/2) 3 5 NLLinear.asNonLinear).2.2
      (by norm_num) (by norm_num)⟩

/-- Invariant of the bisection loop toward a strictly monotone target: if the
sought point `x` is within `2*s` of `t`, each iteration halves that radius. -/
lemma bsInvGo_close {K : Type*} [LinearOrderedField K] (f : K → K)
    (hf : StrictMono f) (x : K) (n : ℕ) :
    ∀ t s : K, 0 < s → |t - x| ≤ 2 * s →
      |bsInvGo (f x) f n t s - x| ≤ 2 * s / 2 ^ n := by
  induction n with
  | zero => intro t s _ ht; simpa using ht
  | succ n ih =>
    intro t s hs ht
    simp only [bsInvGo]
    have key : |(if f t > f x then t - s else t + s) - x| ≤ 2 * (s / 2) := by
      by_cases hc : f t > f x
      · have hx : x < t := hf.lt_iff_lt.mp hc
        rw [if_pos hc, abs_le] at *
        constructor <;> [linarith [ht.1]; linarith [ht.2]]
      · have hx : t ≤ x := le_of_not_lt fun h => hc (hf h)
        rw [if_neg hc, abs_le] at *
        constructor <;> [linarith [ht.1]; linarith [ht.2]]
    have h := ih _ (s / 2) (by linarith) key
    calc |bsInvGo (f x) f n (if f t > f x then t - s else t + s) (s / 2) - x|
        ≤ 2 * (s / 2) / 2 ^ n := h
      _ = 2 * s / 2 ^ (n + 1) := by rw [pow_succ]; ring

/-- Claim C5: `bsInv` is the fixed 16-iteration binary search from `t = 0.5`,
step `0.25`, and for a continuous strictly increasing curve fixing `0` and
`1` it recovers any `t` in `[0,1]` from `f t` to within `2 ^ (-16)`. -/
theorem bsInv_approx_inverse (f : ℝ → ℝ) (hf : StrictMono f)
    (_hc : Continuous f) (_hf0 : f 0 = 0) (_hf1 : f 1 = 1)
    (t : ℝ) (h0 : 0 ≤ t) (h1 : t ≤ 1) :
    |bsInv (f t) f - t| ≤ 1 / 2 ^ 16 := by
  have h := bsInvGo_close f hf t 16 (1 / 2) (1 / 4) (by norm_num)
    (by rw [abs_le]; constructor <;> linarith)
  calc |bsInv (f t) f - t| = |bsInvGo (f t) f 16 (1 / 2) (1 / 4) - t| := rfl
    _ ≤ 2 * (1 / 4) / 2 ^ 16 := h
    _ ≤ 1 / 2 ^ 16 := by norm_num

theorem bsInv_approx_inverse_witness :
    StrictMono (id : ℝ → ℝ) ∧ Continuous (id : ℝ → ℝ) ∧
    id (0 : ℝ) = 0 ∧ id (1 : ℝ) = 1 ∧ (0 : ℝ) ≤ 1/2 ∧ (1/2 : ℝ) ≤ 1 ∧
    |bsInv (id (1/2 : ℝ)) id - 1/2| ≤ 1 / 2 ^ 16 :=
  ⟨strictMono_id, continuous_id, rfl, rfl, by norm_num, by norm_num,
    bsInv_approx_inverse id strictMono_id continuous_id rfl rfl (1/2)
      (by norm_num) (by norm_num)⟩

/-- Drift bound for the bisection loop with no assumption at all on the curve:
`n` iterations starting with step `s` move the point by at most
`2*s - 2*s/2^n`. -/
lemma bsInvGo_drift {K : Type*} [LinearOrderedField K] (v : K) (f : K → K)
    (n : ℕ) :
    ∀ t s : K, 0 ≤ s → |bsInvGo v f n t s - t| ≤ 2 * s - 2 * s / 2 ^ n := by
  induction n with
  | zero => intro t s _; simp [bsInvGo]
  | succ n ih =>
    intro t s hs
    simp only [bsInvGo]
    have h1 := ih (if f t > v then t - s else t + s) (s / 2) (by linarith)
    have h2 : |(if f t > v then t - s else t + s) - t| ≤ s := by
      by_cases hc : f t > v
      · rw [if_pos hc, show t - s - t = -s by ring, abs_neg, abs_of_nonneg hs]
      · rw [if_neg hc, show t + s - t = s by ring, abs_of_nonneg hs]
    calc |bsInvGo v f n (if f t > v then t - s else t + s) (s / 2) - t|
        ≤ |bsInvGo v f n (if f t > v then t - s else t + s) (s / 2) -
            (if f t > v then t - s else t + s)| +
          |(if f t > v then t - s else t + s) - t| := abs_sub_le _ _ _
      _ ≤ (2 * (s / 2) - 2 * (s / 2) / 2 ^ n) + s := add_le_add h1 h2
      _ = 2 * s - 2 * s / 2 ^ (n + 1) := by rw [pow_succ]; ring

/-- The drift bound specialised to the 16 iterations of `bsInv`. -/
lemma bsInv_interior {K : Type*} [LinearOrderedField K] (g : K → K) (z : K) :
    1 / 2 ^ 17 ≤ bsInv z g ∧ bsInv z g ≤ 1 - 1 / 2 ^ 17 := by
  have h := bsInvGo_drift z g 16 (1 / 2) (1 / 4) (by norm_num)
  rw [abs_le] at h
  have e : (2 : K) * (1 / 4) - 2 * (1 / 4) / 2 ^ 16 = 1 / 2 - 1 / 2 ^ 17 := by
    norm_num
  rw [e] at h
  constructor
  · have := h.1
    simp only [bsInv]
    linarith
  · have := h.2
    simp only [bsInv]
    linarith

/-- Claim C9: for every curve `f` and every target `v`, `bsInv` returns a
value in `[2^(-17), 1 - 2^(-17)]`; in particular the bisection-based inverses
of P3, P5 and the stopped curve never return exactly `0` or `1`. -/
theorem bsInv_stays_interior {K : Type*} [LinearOrderedField K]
    (f : K → K) (v : K) (w : ℝ) (u : ℚ)
    (stops : List (ℚ × ℚ)) (hne : stops ≠ []) :
    (1 / 2 ^ 17 ≤ bsInv v f ∧ bsInv v f ≤ 1 - 1 / 2 ^ 17) ∧
    (NLP3.InvTransform w ≠ 0 ∧ NLP3.InvTransform w ≠ 1) ∧
    (NLP5.InvTransform w ≠ 0 ∧ NLP5.InvTransform w ≠ 1) ∧
    (∃ r : ℚ, (NewNLStopped stops).InvTransform u = some r ∧
      r ≠ 0 ∧ r ≠ 1) := by
  refine ⟨bsInv_interior f v, ?_, ?_, ?_⟩
  · have h := bsInv_interior NLP3.Transform w
    constructor
    · intro h0
      rw [NLP3.InvTransform] at h0
      rw [h0] at h
      norm_num at h
    · intro h0
      rw [NLP3.InvTransform] at h0
      rw [h0] at h
      norm_num at h
  · have h := bsInv_interior NLP5.Transform w
    constructor
    · intro h0
      rw [NLP5.InvTransform] at h0
      rw [h0] at h
      norm_num at h
    · intro h0
      rw [NLP5.InvTransform] at h0
      rw [h0] at h
      norm_num at h
  · refine ⟨bsInv u fun t => (((NewNLStopped stops).Transform t).getD 0), ?_, ?_, ?_⟩
    · rw [NLStopped.InvTransform, if_neg (by simpa [NewNLStopped] using hne)]
    · have h := bsInv_interior (fun t => (((NewNLStopped stops).Transform t).getD 0)) u
      intro h0
      rw [h0] at h
      norm_num at h
    · have h := bsInv_interior (fun t => (((NewNLStopped stops).Transform t).getD 0)) u
      intro h0
      rw [h0] at h
      norm_num at h

theorem bsInv_stays_interior_witness :
    ([((1 : ℚ)/2, 1/2)] ≠ ([] : List (ℚ × ℚ))) ∧
    ((1 / 2 ^ 17 ≤ bsInv (0 : ℚ) id ∧ bsInv (0 : ℚ) id ≤ 1 - 1 / 2 ^ 17) ∧
      (NLP3.InvTransform 0 ≠ 0 ∧ NLP3.InvTransform 0 ≠ 1) ∧
      (NLP5.InvTransform 0 ≠ 0 ∧ NLP5.InvTransform 0 ≠ 1) ∧
      (∃ r : ℚ, (NewNLStopped [((1 : ℚ)/2, 1/2)]).InvTransform 0 = some r ∧
        r ≠ 0 ∧ r ≠ 1)) :=
  ⟨by simp, bsInv_stays_interior id 0 0 0 [((1 : ℚ)/2, 1/2)] (by simp)⟩

/-- A curve over the IEEE-style values whose inverse is constantly `1/2`;
any `NonLinear` implementation whose inverse lands strictly inside `(0,1)`
behaves this way at some input. -/
def constHalfF : NonLinearF := ⟨id, fun _ => .fin (1/2)⟩

/-- Claim C7 fails on the code for `v == start == end`: the quotient `0/0` is
NaN, both clamp comparisons on NaN are false, and `InvNLerp` applies the
curve's `InvTransform` to the NaN — here returning `1/2`, which is neither
`0` nor `1`. -/
theorem invnlerp_nan_reaches_curve :
    InvNLerp (.fin 0) (.fin 0) (.fin 0) constHalfF = .fin (1/2) ∧
    FVal.fin (1/2) ≠ .fin 0 ∧ FVal.fin (1/2) ≠ .fin 1 := by
  refine ⟨?_, by norm_num, by norm_num⟩
  simp [InvNLerp, FVal.fsub, FVal.fdiv, FVal.flt, constHalfF]

/-- Claim C7 amended: when `end == start`, the quotient is a signed infinity
for `v ≠ start`, and the clamp returns `0` or `1`; but for `v == start` the
quotient is NaN, both comparisons are false, and the curve's `inv_transform`
IS applied to the NaN value. -/
theorem invnlerp_degenerate_range (v s : ℚ) (f : NonLinearF) :
    (v ≠ s →
      (InvNLerp (.fin v) (.fin s) (.fin s) f = .fin 0 ∨
        InvNLerp (.fin v) (.fin s) (.fin s) f = .fin 1)) ∧
    InvNLerp (.fin s) (.fin s) (.fin s) f = f.InvTransform .nan := by
  constructor
  · intro hvs
    have hne : v - s ≠ 0 := sub_ne_zero.mpr hvs
    rcases lt_or_gt_of_ne hvs with h | h
    · left
      have hneg : ¬ (0 < v - s) := by linarith
      simp [InvNLerp, FVal.fsub, FVal.fdiv, FVal.flt, sub_self, hne, hneg]
    · right
      have hpos : 0 < v - s := by linarith
      simp [InvNLerp, FVal.fsub, FVal.fdiv, FVal.flt, sub_self, hne, hpos]
  · simp [InvNLerp, FVal.fsub, FVal.fdiv, FVal.flt, sub_self]

theorem invnlerp_degenerate_range_witness :
    ((1 : ℚ) ≠ 0) ∧
    (InvNLerp (.fin 1) (.fin 0) (.fin 0) constHalfF = .fin 0 ∨
      InvNLerp (.fin 1) (.fin 0) (.fin 0) constHalfF = .fin 1) ∧
    InvNLerp (.fin 0) (.fin 0) (.fin 0) constHalfF
      = constHalfF.InvTransform .nan :=
  ⟨by norm_num, (invnlerp_degenerate_range 1 0 constHalfF).1 (by norm_num),
    (invnlerp_degenerate_range 0 0 constHalfF).2⟩

/-- Claim C8: the Lamé curve with exponents `n = m = 2` coincides exactly
with `NLCircle1` on `[0,1]`, in both directions. -/
theorem lame22_eq_circle1 (t v : ℝ) (_ht0 : 0 ≤ t) (_ht1 : t ≤ 1)
    (_hv0 : 0 ≤ v) (_hv1 : v ≤ 1) :
    (NewNLLame 2 2).Transform t = NLCircle1.Transform t ∧
    (NewNLLame 2 2).InvTransform v = NLCircle1.InvTransform v := by
  have h2 : ∀ x : ℝ, x ^ (2 : ℝ) = x * x := fun x => by
    rw [show (2 : ℝ) = ((2 : ℕ) : ℝ) by norm_num, Real.rpow_natCast]
    ring
  constructor
  · rw [NLLame.Transform, NLCircle1.Transform]
    simp only [NewNLLame]
    split_ifs with h
    · rw [h2 t, Real.sqrt_eq_rpow]
    · rfl
  · rw [NLLame.InvTransform, NLCircle1.InvTransform]
    simp only [NewNLLame]
    split_ifs with h
    · rw [h2 (1 - v), show (1 - v) * (1 - v) = (v - 1) * (v - 1) by ring,
        Real.sqrt_eq_rpow]
    · rfl

theorem lame22_eq_circle1_witness :
    (0 : ℝ) ≤ 1/2 ∧ (1/2 : ℝ) ≤ 1 ∧ (0 : ℝ) ≤ 1/4 ∧ (1/4 : ℝ) ≤ 1 ∧
    ((NewNLLame 2 2).Transform (1/2) = NLCircle1.Transform (1/2) ∧
      (NewNLLame 2 2).InvTransform (1/4) = NLCircle1.InvTransform (1/4)) :=
  ⟨by norm_num, by norm_num, by norm_num, by norm_num,
    lame22_eq_circle1 (1/2) (1/4) (by norm_num) (by norm_num)
      (by norm_num) (by norm_num)⟩

/-- The normalised logistic `t ↦ 1/(1+exp(-t))` is strictly increasing. -/
lemma logisticTransform_strictMono : StrictMono logisticTransform := by
  intro x y h
  unfold logisticTransform
  have h1 : Real.exp (-y) < Real.exp (-x) := Real.exp_lt_exp.mpr (by linarith)
  exact one_div_lt_one_div_of_lt (by positivity) (by linarith)

/-- When every stop lies at or below `t`, the scan loop runs to
completion. -/
lemma brk_eq_length {K : Type*} [LinearOrderedField K] (t : K)
    (stops : List (K × K)) (h : ∀ p ∈ stops, p.1 ≤ t) :
    NLStopped.brk t stops = stops.length := by
  induction stops with
  | nil => rfl
  | cons p ps ih =>
    simp only [NLStopped.brk, List.length_cons]
    rw [if_neg (not_lt.mpr (h p (List.mem_cons_self p ps))),
      ih fun q hq => h q (List.mem_cons_of_mem p hq)]

/-- The stopped curve maps `0` to `0` whenever the stops are non-empty with
positive `t`-coordinates. -/
lemma stopped_transform_zero {K : Type*} [LinearOrderedField K]
    (stops : List (K × K)) (hne : stops ≠ [])
    (hpos : ∀ p ∈ stops, 0 < p.1) :
    (NewNLStopped stops).Transform 0 = some 0 := by
  obtain ⟨p, ps, rfl⟩ := List.exists_cons_of_ne_nil hne
  have hb : NLStopped.brk (0 : K) (p :: ps) = 0 := by
    simp only [NLStopped.brk]
    rw [if_pos (hpos p (List.mem_cons_self p ps))]
  simp only [NewNLStopped, NLStopped.Transform, hb, List.length_cons]
  rw [if_neg (Nat.succ_ne_zero ps.length).symm]
  norm_num

/-- The stopped curve maps `1` to `1` whenever the stops are non-empty with
`t`-coordinates strictly below `1`. -/
lemma stopped_transform_one {K : Type*} [LinearOrderedField K]
    (stops : List (K × K)) (hne : stops ≠ [])
    (hlt : ∀ p ∈ stops, p.1 < 1) :
    (NewNLStopped stops).Transform 1 = some 1 := by
  have hb : NLStopped.brk (1 : K) stops = stops.length :=
    brk_eq_length 1 stops fun p hp => le_of_lt (hlt p hp)
  have hlen : stops.length - 1 < stops.length :=
    Nat.sub_lt (List.length_pos.mpr hne) one_pos
  have hget : stops[stops.length - 1]? = some (stops.get ⟨stops.length - 1, hlen⟩) :=
    List.getElem?_eq_getElem hlen
  have hmem : stops.get ⟨stops.length - 1, hlen⟩ ∈ stops := stops.get_mem _ _
  simp only [NewNLStopped, NLStopped.Transform, hb, lt_irrefl, if_false,
    eq_self_iff_true, if_true, hget, Option.map_some']
  have h1 : (1 : K) - (stops.get ⟨stops.length - 1, hlen⟩).1 ≠ 0 :=
    sub_ne_zero.mpr (hlt _ hmem).ne'
  rw [div_self h1]
  norm_num

/-- Threading a common fixed point of all children through the compound fold
leaves it unchanged. -/
lemma compound_foldl_fix (fs : List NonLinear) (c : ℝ)
    (h : ∀ g ∈ fs, g.Transform c = c) :
    (NewNLCompound fs).Transform c = c := by
  induction fs with
  | nil => rfl
  | cons f fs ih =>
    simp only [NewNLCompound, NLCompound.Transform, List.foldl_cons] at *
    rw [h f (List.mem_cons_self f fs)]
    exact ih fun g hg => h g (List.mem_cons_of_mem f hg)

/-- Claim C3: every curve of the library, built with valid parameters, maps
`0` to `0` and `1` to `1` exactly over the reals (the parameterized curves
through the normalization constants fixed at construction, the stopped curve
producing `some` of the endpoint). -/
theorem transform_endpoints
    (ke kl n m kg klo mp : ℝ)
    (hke : ke ≠ 0) (hkl : kl ≠ 0) (hkl1 : -1 < kl)
    (hn : 0 < n) (_hm : 0 < m) (hkg : kg ≠ 0)
    (hklo : 0 < klo) (_hmp0 : 0 < mp) (_hmp1 : mp < 1)
    (stops : List (ℝ × ℝ)) (hne : stops ≠ [])
    (hst : ∀ p ∈ stops, 0 < p.1 ∧ p.1 < 1)
    (fs : List NonLinear)
    (hfs : ∀ g ∈ fs, g.Transform 0 = 0 ∧ g.Transform 1 = 1)
    (f : NonLinear) (hf1 : f.Transform 1 = 1) :
    (NLLinear.Transform 0 = 0 ∧ NLLinear.Transform 1 = 1) ∧
    (NLSquare.Transform 0 = 0 ∧ NLSquare.Transform 1 = 1) ∧
    (NLCube.Transform 0 = 0 ∧ NLCube.Transform 1 = 1) ∧
    ((NewNLExponential ke).Transform 0 = 0 ∧
      (NewNLExponential ke).Transform 1 = 1) ∧
    ((NewNLLogarithmic kl).Transform 0 = 0 ∧
      (NewNLLogarithmic kl).Transform 1 = 1) ∧
    (NLSin.Transform 0 = 0 ∧ NLSin.Transform 1 = 1) ∧
    (NLSin1.Transform 0 = 0 ∧ NLSin1.Transform 1 = 1) ∧
    (NLSin2.Transform 0 = 0 ∧ NLSin2.Transform 1 = 1) ∧
    (NLCircle1.Transform 0 = 0 ∧ NLCircle1.Transform 1 = 1) ∧
    (NLCircle2.Transform 0 = 0 ∧ NLCircle2.Transform 1 = 1) ∧
    ((NewNLLame n m).Transform 0 = 0 ∧ (NewNLLame n m).Transform 1 = 1) ∧
    (NLCatenary.Transform 0 = 0 ∧ NLCatenary.Transform 1 = 1) ∧
    ((NewNLGauss kg).Transform 0 = 0 ∧ (NewNLGauss kg).Transform 1 = 1) ∧
    ((NewNLLogistic klo mp).Transform 0 = 0 ∧
      (NewNLLogistic klo mp).Transform 1 = 1) ∧
    (NLP3.Transform 0 = 0 ∧ NLP3.Transform 1 = 1) ∧
    (NLP5.Transform 0 = 0 ∧ NLP5.Transform 1 = 1) ∧
    ((NewNLStopped stops).Transform 0 = some 0 ∧
      (NewNLStopped stops).Transform 1 = some 1) ∧
    ((NewNLCompound fs).Transform 0 = 0 ∧
      (NewNLCompound fs).Transform 1 = 1) ∧
    ((NewNLOmt f).Transform 0 = 0 ∧ (NewNLOmt f).Transform 1 = 1) := by
  refine ⟨⟨rfl, rfl⟩, ⟨by norm_num [NLSquare.Transform],
    by norm_num [NLSquare.Transform]⟩, ⟨by norm_num [NLCube.Transform],
    by norm_num [NLCube.Transform]⟩, ⟨?_, ?_⟩, ⟨?_, ?_⟩, ⟨?_, ?_⟩, ⟨?_, ?_⟩,
    ⟨?_, ?_⟩, ⟨?_, ?_⟩, ⟨?_, ?_⟩, ⟨?_, ?_⟩, ⟨?_, ?_⟩, ⟨?_, ?_⟩, ⟨?_, ?_⟩,
    ⟨by norm_num [NLP3.Transform], by norm_num [NLP3.Transform]⟩,
    ⟨by norm_num [NLP5.Transform], by norm_num [NLP5.Transform]⟩,
    ⟨stopped_transform_zero stops hne fun p hp => (hst p hp).1,
      stopped_transform_one stops hne fun p hp => (hst p hp).2⟩,
    ⟨compound_foldl_fix fs 0 fun g hg => (hfs g hg).1,
      compound_foldl_fix fs 1 fun g hg => (hfs g hg).2⟩, ⟨?_, ?_⟩⟩
  · simp [NLExponential.Transform, NewNLExponential]
  · have h : Real.exp ke - 1 ≠ 0 :=
      sub_ne_zero.mpr (by simpa [Real.exp_eq_one_iff] using hke)
    simp only [NLExponential.Transform, NewNLExponential, one_mul]
    rw [mul_one_div, div_self h]
  · simp [NLLogarithmic.Transform, NewNLLogarithmic]
  · have h : Real.log (1 + kl) ≠ 0 := by
      rw [Ne, Real.log_eq_zero]
      push_neg
      exact ⟨by linarith, fun hh => hkl (by linarith), by linarith⟩
    simp only [NLLogarithmic.Transform, NewNLLogarithmic, one_mul]
    rw [mul_one_div, div_self h]
  · rw [NLSin.Transform, show ((0 : ℝ) - 0.5) * Real.pi = -(Real.pi / 2) by
      rw [show (0 : ℝ) - 0.5 = -(1/2) by norm_num]; ring,
      Real.sin_neg, Real.sin_pi_div_two]
    norm_num
  · rw [NLSin.Transform, show ((1 : ℝ) - 0.5) * Real.pi = Real.pi / 2 by
      rw [show (1 : ℝ) - 0.5 = 1/2 by norm_num]; ring,
      Real.sin_pi_div_two]
    norm_num
  · simp [NLSin1.Transform]
  · rw [NLSin1.Transform, one_mul, Real.sin_pi_div_two]
  · rw [NLSin2.Transform, show ((0 : ℝ) - 1) * Real.pi / 2 = -(Real.pi / 2) by
      ring, Real.sin_neg, Real.sin_pi_div_two]
    norm_num
  · rw [NLSin2.Transform, show ((1 : ℝ) - 1) * Real.pi / 2 = 0 by ring,
      Real.sin_zero]
    norm_num
  · rw [NLCircle1.Transform, if_pos (by norm_num : (0 : ℝ) < 1)]
    norm_num
  · rw [NLCircle1.Transform, if_neg (lt_irrefl 1)]
  · rw [NLCircle2.Transform, show (0 : ℝ) * (2 - 0) = 0 by ring,
      Real.sqrt_zero]
  · rw [NLCircle2.Transform, show (1 : ℝ) * (2 - 1) = 1 by ring,
      Real.sqrt_one]
  · rw [NLLame.Transform]
    simp only [NewNLLame]
    rw [if_pos (by norm_num : (0 : ℝ) < 1), Real.zero_rpow hn.ne']
    norm_num [Real.one_rpow]
  · rw [NLLame.Transform]
    simp only [NewNLLame]
    rw [if_neg (lt_irrefl 1)]
  · rw [NLCatenary.Transform, Real.cosh_zero]
    norm_num
  · have h : Real.cosh 1 - 1 ≠ 0 :=
      sub_ne_zero.mpr (Real.one_lt_cosh.mpr one_ne_zero).ne'
    rw [NLCatenary.Transform, div_self h]
  · simp only [NLGauss.Transform, NewNLGauss]
    rw [show kg * ((0 : ℝ) - 1) * (-0.5 * (kg * ((0 : ℝ) - 1)))
        = -kg * kg * 0.5 by
      rw [show (0.5 : ℝ) = 1/2 by norm_num]; ring]
    simp
  · have hlt : Real.exp (-kg * kg * 0.5) < 1 := by
      rw [Real.exp_lt_one_iff]
      have h0 : 0 < kg * kg := mul_self_pos.mpr hkg
      rw [show (0.5 : ℝ) = 1/2 by norm_num]
      linarith
    have h : 1 - Real.exp (-kg * kg * 0.5) ≠ 0 := sub_ne_zero.mpr hlt.ne'
    simp only [NLGauss.Transform, NewNLGauss]
    rw [show kg * ((1 : ℝ) - 1) * (-0.5 * (kg * ((1 : ℝ) - 1))) = 0 by
      rw [show (0.5 : ℝ) = 1/2 by norm_num]; ring]
    rw [Real.exp_zero, mul_one_div, div_self h]
  · simp only [NLLogistic.Transform, NewNLLogistic]
    rw [show ((0 : ℝ) - mp) * klo = -mp * klo by ring]
    rw [sub_self, zero_mul]
  · have hlt : logisticTransform (-mp * klo)
        < logisticTransform ((1 - mp) * klo) :=
      logisticTransform_strictMono (by nlinarith)
    have h : logisticTransform ((1 - mp) * klo)
        - logisticTransform (-mp * klo) ≠ 0 := sub_ne_zero.mpr hlt.ne'
    simp only [NLLogistic.Transform, NewNLLogistic]
    rw [mul_one_div, div_self h]
  · norm_num [NLOmt.Transform, NewNLOmt, hf1]
  · norm_num [NLOmt.Transform, NewNLOmt]

theorem transform_endpoints_witness :
    ((1 : ℝ) ≠ 0) ∧ (-1 < (1 : ℝ)) ∧ (0 < (2 : ℝ)) ∧ (0 < (1 : ℝ)) ∧
    (0 < (1/2 : ℝ)) ∧ ((1/2 : ℝ) < 1) ∧
    ([((1 : ℝ)/2, (1 : ℝ)/2)] ≠ ([] : List (ℝ × ℝ))) ∧
    (∀ p ∈ [((1 : ℝ)/2, (1 : ℝ)/2)], 0 < p.1 ∧ p.1 < 1) ∧
    (∀ g ∈ ([] : List NonLinear), g.Transform 0 = 0 ∧ g.Transform 1 = 1) ∧
    (NLLinear.asNonLinear.Transform 1 = 1) ∧
    (((NLLinear.Transform 0 = 0 ∧ NLLinear.Transform 1 = 1) ∧
      (NLSquare.Transform 0 = 0 ∧ NLSquare.Transform 1 = 1) ∧
      (NLCube.Transform 0 = 0 ∧ NLCube.Transform 1 = 1) ∧
      ((NewNLExponential 1).Transform 0 = 0 ∧
        (NewNLExponential 1).Transform 1 = 1) ∧
      ((NewNLLogarithmic 1).Transform 0 = 0 ∧
        (NewNLLogarithmic 1).Transform 1 = 1) ∧
      (NLSin.Transform 0 = 0 ∧ NLSin.Transform 1 = 1) ∧
      (NLSin1.Transform 0 = 0 ∧ NLSin1.Transform 1 = 1) ∧
      (NLSin2.Transform 0 = 0 ∧ NLSin2.Transform 1 = 1) ∧
      (NLCircle1.Transform 0 = 0 ∧ NLCircle1.Transform 1 = 1) ∧
      (NLCircle2.Transform 0 = 0 ∧ NLCircle2.Transform 1 = 1) ∧
      ((NewNLLame 2 2).Transform 0 = 0 ∧ (NewNLLame 2 2).Transform 1 = 1) ∧
      (NLCatenary.Transform 0 = 0 ∧ NLCatenary.Transform 1 = 1) ∧
      ((NewNLGauss 1).Transform 0 = 0 ∧ (NewNLGauss 1).Transform 1 = 1) ∧
      ((NewNLLogistic 1 (1/2)).Transform 0 = 0 ∧
        (NewNLLogistic 1 (1/2)).Transform 1 = 1) ∧
      (NLP3.Transform 0 = 0 ∧ NLP3.Transform 1 = 1) ∧
      (NLP5.Transform 0 = 0 ∧ NLP5.Transform 1 = 1) ∧
      ((NewNLStopped [((1 : ℝ)/2, (1 : ℝ)/2)]).Transform 0 = some 0 ∧
        (NewNLStopped [((1 : ℝ)/2, (1 : ℝ)/2)]).Transform 1 = some 1) ∧
      ((NewNLCompound []).Transform 0 = 0 ∧
        (NewNLCompound []).Transform 1 = 1) ∧
      ((NewNLOmt NLLinear.asNonLinear).Transform 0 = 0 ∧
        (NewNLOmt NLLinear.asNonLinear).Transform 1 = 1))) :=
  ⟨by norm_num, by norm_num, by norm_num, by norm_num, by norm_num,
    by norm_num, by simp,
    by intro p hp; rw [List.mem_singleton] at hp; subst hp; norm_num,
    by simp, rfl,
    transform_endpoints 1 1 2 2 1 1 (1/2) (by norm_num) (by norm_num)
      (by norm_num) (by norm_num) (by norm_num) (by norm_num) (by norm_num)
      (by norm_num) (by norm_num) [((1 : ℝ)/2, (1 : ℝ)/2)] (by simp)
      (by intro p hp; rw [List.mem_singleton] at hp; subst hp; norm_num)
      [] (by simp) NLLinear.asNonLinear rfl⟩
